import Mathlib

/-! WebUserApi (airdcpp-webclient, `api/WebUserApi.cpp`)

A shallow embedding of the web-user API module: the property table, the four
request handlers, the three listener callbacks and `parseUser`, followed by
theorems about them.

The embedding follows `WebUserApi.cpp` line by line.  The collaborators that
file calls (`JsonUtil`, `WebUser`, `WebUserManager`, `Serializer`,
`WebUserUtils`, `ApiRequest`, the view and the subscription primitives of the
module base class) are defined elsewhere in the repository; they are modelled
from the specification, and each such definition says so in its doc comment.

Exceptions.  A handler either returns a status or ends with the
`ArgumentException` raised by `JsonUtil`; the result is an `Except`.

Reference semantics.  `WebUserPtr` is a `std::shared_ptr<WebUser>` (line 76
creates one with `std::make_shared`), so a call such as `aUser->setPassword(..)`
changes the object the pointer designates.  Here a function that mutates
through a pointer returns the final value of the pointee, and the caller puts
that value back where the object lives: a local variable in `handleAddUser`,
the manager's collection in `handleUpdateUser`.

Ghost state.  `ApiState.serializeCalls` counts the entity serializations
performed; it exists to state how often a listener callback serializes.
-/

namespace webserver

/-! ## JSON values and `JsonUtil` -/

/-- A JSON value (the type `json` of the source). -/
inductive Json where
  | null
  | bool (b : Bool)
  | num (n : Int)
  | str (s : String)
  | arr (xs : List Json)
  | obj (kvs : List (String × Json))

/-- The member of a JSON object stored under `key`; a value that is not an
object has no members. -/
def Json.find (j : Json) (key : String) : Option Json :=
  match j with
  | .obj kvs => kvs.lookup key
  | _ => none

/-- The keys of a JSON object, in order. -/
def Json.keys (j : Json) : List String :=
  match j with
  | .obj kvs => kvs.map Prod.fst
  | _ => []

/-- Modelled from the spec: the error kinds of `JsonUtil`, declared outside
`WebUserApi.cpp`: a "missing required field", a "field present but malformed",
and the "uniqueness conflict" `ERROR_EXISTS` used on line 81. -/
inductive ErrorType where
  | ERROR_MISSING
  | ERROR_INVALID
  | ERROR_EXISTS
  deriving DecidableEq, Repr

/-- Modelled from the spec: the exception a validation failure raises, declared
outside `WebUserApi.cpp`: "a structured error naming the offending field and an
error-kind code", with a message. -/
structure ArgumentException where
  field : String
  type : ErrorType
  message : String
  deriving DecidableEq, Repr

/-- Modelled from the spec: the exception that
`JsonUtil::throwError(aFieldName, aType, aMessage)`, defined outside
`WebUserApi.cpp`, raises; the call never returns. -/
def JsonUtil.throwError (aFieldName : String) (aType : ErrorType) (aMessage : String) :
    ArgumentException :=
  { field := aFieldName, type := aType, message := aMessage }

/-- Modelled from the spec: the conversions `JsonUtil` performs for a field type
`T` (`JsonUtil` is defined outside `WebUserApi.cpp`).  `get` reads a JSON value
as a `T` and is `none` when the value is malformed for `T`; `isEmpty` tells an
empty value; `nullValue` is what a JSON null stands for when empty values are
allowed. -/
class JsonField (T : Type) where
  get : Json → Option T
  isEmpty : T → Bool
  nullValue : T

/-- Modelled from the spec: a text field is a JSON string, empty when it has no
characters (the username is "required, non-empty").  The spec leaves open
whether an empty password is a valid credential; here the same check applies
to it, and every theorem below that needs a valid password takes a non-empty
one. -/
instance : JsonField String where
  get
    | .str s => some s
    | _ => none
  isEmpty s := decide (s = "")
  nullValue := ""

/-- The text of a JSON string; `none` for any other value. -/
def Json.asString : Json → Option String
  | .str s => some s
  | _ => none

/-- The texts of a list of JSON strings; `none` when an element is not a string. -/
def Json.asStringList : List Json → Option (List String)
  | [] => some []
  | x :: xs =>
    match x.asString, Json.asStringList xs with
    | some s, some rest => some (s :: rest)
    | _, _ => none

/-- Modelled from the spec: a `StringList` field is a JSON array of strings.  An
array without elements is a value, not an empty field: the scenario of the spec
updates a user with `permissions: []` successfully. -/
instance : JsonField (List String) where
  get
    | .arr xs => Json.asStringList xs
    | _ => none
  isEmpty _ := false
  nullValue := []

/-- Modelled from the spec: `JsonUtil::parseValue<T>` (defined outside
`WebUserApi.cpp`).  A field that is "present but malformed" is a validation
error; when `aAllowEmpty` is false (the third argument of every call in
`WebUserApi.cpp`) a null or empty value is a validation error too. -/
def JsonUtil.parseValue {T : Type} [JsonField T] (aFieldName : String) (aJson : Json)
    (aAllowEmpty : Bool) : Except ArgumentException T :=
  match aJson with
  | .null =>
    if aAllowEmpty then .ok (JsonField.nullValue)
    else .error (JsonUtil.throwError aFieldName .ERROR_INVALID "Field can't be empty")
  | v =>
    match (JsonField.get v : Option T) with
    | none => .error (JsonUtil.throwError aFieldName .ERROR_INVALID "Invalid value")
    | some ret =>
      if !aAllowEmpty && JsonField.isEmpty ret then
        .error (JsonUtil.throwError aFieldName .ERROR_INVALID "Field can't be empty")
      else .ok ret

/-- Modelled from the spec: `JsonUtil::getField<T>(aFieldName, aJson, aAllowEmpty)`
(defined outside `WebUserApi.cpp`): a "missing required field" is a validation
error, otherwise the member is parsed. -/
def JsonUtil.getField {T : Type} [JsonField T] (aFieldName : String) (aJson : Json)
    (aAllowEmpty : Bool) : Except ArgumentException T :=
  match aJson.find aFieldName with
  | none => .error (JsonUtil.throwError aFieldName .ERROR_MISSING "Field missing")
  | some v => JsonUtil.parseValue aFieldName v aAllowEmpty

/-- Modelled from the spec:
`JsonUtil::getOptionalField<T>(aFieldName, aJson, aAllowEmpty, aThrowIfMissing)`
(defined outside `WebUserApi.cpp`).  With `aThrowIfMissing` the field is
mandatory and the call is `getField`; otherwise an absent field gives no value
and a present one is parsed. -/
def JsonUtil.getOptionalField {T : Type} [JsonField T] (aFieldName : String) (aJson : Json)
    (aAllowEmpty : Bool) (aThrowIfMissing : Bool) : Except ArgumentException (Option T) :=
  if aThrowIfMissing then
    (JsonUtil.getField aFieldName aJson aAllowEmpty).map some
  else
    match aJson.find aFieldName with
    | none => .ok none
    | some v => (JsonUtil.parseValue aFieldName v aAllowEmpty).map some

/-! ## The entity -/

/-- Modelled from the spec: a web user (class `WebUser` is defined outside
`WebUserApi.cpp`): the username that identifies it, the password credential,
the permission set, the active-session count and the last-login time. -/
structure WebUser where
  userName : String
  password : String
  permissions : List String
  activeSessions : Nat
  lastLogin : Nat
  deriving DecidableEq, Repr

/-- Modelled from the spec: the constructor `WebUser(aUserName, aPassword)`
used on line 76; a new account has no permissions, no session and no login. -/
def WebUser.new (aUserName aPassword : String) : WebUser :=
  { userName := aUserName, password := aPassword, permissions := [],
    activeSessions := 0, lastLogin := 0 }

/-- Modelled from the spec: `WebUser::setPassword` "overwrites the credential". -/
def WebUser.setPassword (u : WebUser) (aPassword : String) : WebUser :=
  { u with password := aPassword }

/-- Modelled from the spec: `WebUser::setPermissions` "fully replaces the
permission set (not merged)". -/
def WebUser.setPermissions (u : WebUser) (aPermissions : List String) : WebUser :=
  { u with permissions := aPermissions }

/-- The function `WebUserApi::parseUser(aUser, j, aIsNew)` (lines 136-147).  The result is the
value of `*aUser` when the call ends, paired with the way it ends: normally, or
with the exception raised by `JsonUtil`. -/
def WebUserApi.parseUser (aUser : WebUser) (j : Json) (aIsNew : Bool) :
    WebUser × Except ArgumentException Unit :=
  match (JsonUtil.getOptionalField "password" j false aIsNew :
      Except ArgumentException (Option String)) with
  | .error e => (aUser, .error e)
  | .ok password =>
    let aUser := match password with
      | some p => aUser.setPassword p
      | none => aUser
    match (JsonUtil.getOptionalField "permissions" j false false :
        Except ArgumentException (Option (List String))) with
    | .error e => (aUser, .error e)
    | .ok permissions =>
      let aUser := match permissions with
        | some p => aUser.setPermissions p
        | none => aUser
      (aUser, .ok ())

/-! ## The property table and serialization -/

/-- Modelled from the spec: the property identifiers of `WebUserApi`, an
enumeration declared outside `WebUserApi.cpp`; its members are the four the
table on lines 30-35 names, and distinct members are distinct identifiers. -/
inductive PropertyId where
  | PROP_NAME
  | PROP_PERMISSIONS
  | PROP_ACTIVE_SESSIONS
  | PROP_LAST_LOGIN
  deriving DecidableEq, Repr

/-- Modelled from the spec: the semantic type of a descriptor, an enumeration
declared outside `WebUserApi.cpp`; the members are those the table uses. -/
inductive FilterPropertyType where
  | TYPE_TEXT
  | TYPE_LIST_NUMERIC
  | TYPE_NUMERIC_OTHER
  | TYPE_TIME
  deriving DecidableEq, Repr

/-- Modelled from the spec: the serialization strategy of a descriptor
("verbatim text, verbatim number, or custom function"), an enumeration declared
outside `WebUserApi.cpp`. -/
inductive SerializationMethod where
  | SERIALIZE_TEXT
  | SERIALIZE_NUMERIC
  | SERIALIZE_CUSTOM
  deriving DecidableEq, Repr

/-- Modelled from the spec: the sort strategy of a descriptor ("verbatim-by-type
or custom comparator"), an enumeration declared outside `WebUserApi.cpp`. -/
inductive SortMethod where
  | SORT_TEXT
  | SORT_NUMERIC
  | SORT_CUSTOM
  deriving DecidableEq, Repr

/-- Modelled from the spec: a property descriptor, a type declared outside
`WebUserApi.cpp`, with the five columns of the table on lines 30-35. -/
structure Property where
  id : PropertyId
  name : String
  filterType : FilterPropertyType
  serializationMethod : SerializationMethod
  sortMethod : SortMethod
  deriving DecidableEq, Repr

/-- The table `WebUserApi::properties` (lines 30-35). -/
def WebUserApi.properties : List Property :=
  [ { id := .PROP_NAME, name := "username", filterType := .TYPE_TEXT,
      serializationMethod := .SERIALIZE_TEXT, sortMethod := .SORT_TEXT },
    { id := .PROP_PERMISSIONS, name := "permissions", filterType := .TYPE_LIST_NUMERIC,
      serializationMethod := .SERIALIZE_CUSTOM, sortMethod := .SORT_CUSTOM },
    { id := .PROP_ACTIVE_SESSIONS, name := "active_sessions", filterType := .TYPE_NUMERIC_OTHER,
      serializationMethod := .SERIALIZE_NUMERIC, sortMethod := .SORT_NUMERIC },
    { id := .PROP_LAST_LOGIN, name := "last_login", filterType := .TYPE_TIME,
      serializationMethod := .SERIALIZE_NUMERIC, sortMethod := .SORT_NUMERIC } ]

/-- Modelled from the spec: the function `toPropertyIdSet` called on line 125,
defined outside `WebUserApi.cpp`: the identifiers of a property table. -/
def toPropertyIdSet (aProperties : List Property) : List PropertyId :=
  aProperties.map Property.id

/-- Modelled from the spec: `WebUserUtils::getStringInfo` (defined outside
`WebUserApi.cpp`), the text of a text-typed property.  Asking for a property
it does not cover is a programming error; the model answers the empty string. -/
def WebUserUtils.getStringInfo (aUser : WebUser) (aPropertyName : PropertyId) : String :=
  match aPropertyName with
  | .PROP_NAME => aUser.userName
  | _ => ""

/-- Modelled from the spec: `WebUserUtils::getNumericInfo` (defined outside
`WebUserApi.cpp`), the number of a numeric-typed property.  Asking for a
property it does not cover is a programming error; the model answers zero. -/
def WebUserUtils.getNumericInfo (aUser : WebUser) (aPropertyName : PropertyId) : Int :=
  match aPropertyName with
  | .PROP_ACTIVE_SESSIONS => aUser.activeSessions
  | .PROP_LAST_LOGIN => aUser.lastLogin
  | _ => 0

/-- Modelled from the spec: `WebUserUtils::serializeItem` (defined outside
`WebUserApi.cpp`), the custom rendering: the permission set as a list.  Asking
for a property it does not cover is a programming error; the model answers null. -/
def WebUserUtils.serializeItem (aUser : WebUser) (aPropertyName : PropertyId) : Json :=
  match aPropertyName with
  | .PROP_PERMISSIONS => .arr (aUser.permissions.map Json.str)
  | _ => .null

/-- Modelled from the spec: the type `PropertyItemHandler<WebUserPtr>`, declared
outside `WebUserApi.cpp`: a property table bound to the functions that read an
entity.  The comparison and filter functions that lines 37-40 also pass take no
part in serialization and are left out. -/
structure PropertyItemHandler where
  properties : List Property
  stringF : WebUser → PropertyId → String
  numberF : WebUser → PropertyId → Int
  jsonF : WebUser → PropertyId → Json

/-- The handler `WebUserApi::itemHandler` (lines 37-40). -/
def WebUserApi.itemHandler : PropertyItemHandler :=
  { properties := WebUserApi.properties,
    stringF := WebUserUtils.getStringInfo,
    numberF := WebUserUtils.getNumericInfo,
    jsonF := WebUserUtils.serializeItem }

/-- Modelled from the spec: the value `Serializer` (defined outside
`WebUserApi.cpp`) gives one property, "rendered per that descriptor's
serialization strategy (raw text, raw number, or custom-rendered)". -/
def Serializer.serializeProperty (aItem : WebUser) (aHandler : PropertyItemHandler)
    (aProperty : Property) : Json :=
  match aProperty.serializationMethod with
  | .SERIALIZE_TEXT => .str (aHandler.stringF aItem aProperty.id)
  | .SERIALIZE_NUMERIC => .num (aHandler.numberF aItem aProperty.id)
  | .SERIALIZE_CUSTOM => aHandler.jsonF aItem aProperty.id

/-- Modelled from the spec: `Serializer::serializeItem` (defined outside
`WebUserApi.cpp`): "one flattened object keyed by each descriptor's
identifier", one member per row of the handler's table. -/
def Serializer.serializeItem (aItem : WebUser) (aHandler : PropertyItemHandler) : Json :=
  .obj (aHandler.properties.map fun p => (p.name, Serializer.serializeProperty aItem aHandler p))

/-- Modelled from the spec: `Serializer::serializeItemList` (defined outside
`WebUserApi.cpp`): `serializeItem` applied "to every entity in the input
sequence, preserving input order". -/
def Serializer.serializeItemList (aHandler : PropertyItemHandler) (aItems : List WebUser) :
    Json :=
  .arr (aItems.map fun u => Serializer.serializeItem u aHandler)

/-! ## The module state -/

/-- Modelled from the spec: the view (defined outside `WebUserApi.cpp`), "a
server-held registry of currently visible entity identities", keyed by username. -/
structure View where
  items : List String
  deriving DecidableEq, Repr

/-- Modelled from the spec: `onItemAdded` "records the entity's identity as known". -/
def View.onItemAdded (v : View) (aItem : WebUser) : View :=
  if aItem.userName ∈ v.items then v else { items := v.items ++ [aItem.userName] }

/-- Modelled from the spec: `onItemUpdated` makes "no identity change"; the
changed property identifiers are informational. -/
def View.onItemUpdated (v : View) (_aItem : WebUser) (_aUpdatedProperties : List PropertyId) :
    View :=
  v

/-- Modelled from the spec: `onItemRemoved` "drops the identity from the known
set"; removing an identity that is not tracked changes nothing. -/
def View.onItemRemoved (v : View) (aItem : WebUser) : View :=
  { items := v.items.filter fun n => n != aItem.userName }

/-- Modelled from the spec: an event pushed to the consumer, "carrying the
serialized entity record" under its topic. -/
structure OutboundEvent where
  topic : String
  data : Json

/-- The state the module works on: the accounts held by the manager `um`, the
module's view and subscription registry (topic to enabled), the events sent so
far, and a ghost counter of the entity serializations performed so far. -/
structure ApiState where
  users : List WebUser
  view : View
  subscriptions : List (String × Bool)
  sent : List OutboundEvent
  serializeCalls : Nat

/-- Modelled from the spec: the callback type `maybeSend` takes, declared outside
`WebUserApi.cpp`: a value computed on demand.  Given the number of
serializations performed so far it yields the value and the number performed
afterwards. -/
abbrev JsonCallback := Nat → Json × Nat

/-- Modelled from the spec: `createSubscription` (defined outside
`WebUserApi.cpp`) declares a topic: it "exists, defaults disabled". -/
def SubscribableApiModule.createSubscription (st : ApiState) (aSubscription : String) :
    ApiState :=
  { st with subscriptions := st.subscriptions ++ [(aSubscription, false)] }

/-- Modelled from the spec: whether the topic is enabled in the registry;
"absence of the topic in the registry is equivalent to disabled". -/
def SubscribableApiModule.subscriptionActive (st : ApiState) (aSubscription : String) : Bool :=
  match st.subscriptions.lookup aSubscription with
  | some enabled => enabled
  | none => false

/-- Modelled from the spec: `maybeSend` (defined outside `WebUserApi.cpp`): "a
thunk passed to the dispatch primitive, invoked at most once, only if at least
one subscriber is enabled for the topic"; the value is sent under the topic. -/
def SubscribableApiModule.maybeSend (st : ApiState) (aSubscription : String)
    (aCallback : JsonCallback) : ApiState :=
  if SubscribableApiModule.subscriptionActive st aSubscription then
    let r := aCallback st.serializeCalls
    { st with serializeCalls := r.2, sent := st.sent ++ [{ topic := aSubscription, data := r.1 }] }
  else st

/-- The callback `[&] { return Serializer::serializeItem(aUser, itemHandler); }`
of lines 121, 127 and 133: one serialization. -/
def WebUserApi.serializeCallback (aUser : WebUser) : JsonCallback :=
  fun calls => (Serializer.serializeItem aUser WebUserApi.itemHandler, calls + 1)

/-- The callback `WebUserApi::on(WebUserManagerListener::UserAdded, aUser)` (lines 118-122). -/
def WebUserApi.on_UserAdded (st : ApiState) (aUser : WebUser) : ApiState :=
  let st := { st with view := st.view.onItemAdded aUser }
  SubscribableApiModule.maybeSend st "web_user_added" (WebUserApi.serializeCallback aUser)

/-- The callback `WebUserApi::on(WebUserManagerListener::UserUpdated, aUser)` (lines 124-128). -/
def WebUserApi.on_UserUpdated (st : ApiState) (aUser : WebUser) : ApiState :=
  let st := { st with
    view := st.view.onItemUpdated aUser (toPropertyIdSet WebUserApi.properties) }
  SubscribableApiModule.maybeSend st "web_user_updated" (WebUserApi.serializeCallback aUser)

/-- The callback `WebUserApi::on(WebUserManagerListener::UserRemoved, aUser)` (lines 130-134). -/
def WebUserApi.on_UserRemoved (st : ApiState) (aUser : WebUser) : ApiState :=
  let st := { st with view := st.view.onItemRemoved aUser }
  SubscribableApiModule.maybeSend st "web_user_removed" (WebUserApi.serializeCallback aUser)

/-! ## The account manager -/

/-- Modelled from the spec: `WebUserManager::getUsers` (defined outside
`WebUserApi.cpp`), "the manager's authoritative full list at call time". -/
def WebUserManager.getUsers (st : ApiState) : List WebUser :=
  st.users

/-- Modelled from the spec: `WebUserManager::getUser` (defined outside
`WebUserApi.cpp`): the account with the given username, if there is one.  The module
"neither owns nor copies" accounts: the result designates the manager's own
object, see `WebUserManager.assign`. -/
def WebUserManager.getUser (st : ApiState) (aUserName : String) : Option WebUser :=
  st.users.find? fun u => u.userName == aUserName

/-- The collection after the object designated by a pointer obtained from
`getUser` has taken the value `aUser`: the account `getUser` finds under that
username, the first one, is the one replaced. -/
def WebUserManager.assignIn : List WebUser → WebUser → List WebUser
  | [], _ => []
  | u :: us, aUser =>
    if u.userName == aUser.userName then aUser :: us
    else u :: WebUserManager.assignIn us aUser

/-- The state after the object designated by a pointer obtained from `getUser`
has taken the value `aUser`. -/
def WebUserManager.assign (st : ApiState) (aUser : WebUser) : ApiState :=
  { st with users := WebUserManager.assignIn st.users aUser }

/-- Modelled from the spec: `WebUserManager::addUser` (defined outside
`WebUserApi.cpp`).  It refuses a username that is already present and changes nothing
then; otherwise the account joins the collection and the manager raises the
"created" event, received by `on_UserAdded`. -/
def WebUserManager.addUser (st : ApiState) (aUser : WebUser) : Bool × ApiState :=
  match WebUserManager.getUser st aUser.userName with
  | some _ => (false, st)
  | none => (true, WebUserApi.on_UserAdded { st with users := st.users ++ [aUser] } aUser)

/-- Modelled from the spec: `WebUserManager::updateUser` (defined outside
`WebUserApi.cpp`): the account has been changed through its pointer already;
the manager raises the "updated" event, received by `on_UserUpdated`. -/
def WebUserManager.updateUser (st : ApiState) (aUser : WebUser) : ApiState :=
  WebUserApi.on_UserUpdated st aUser

/-- Modelled from the spec: `WebUserManager::removeUser` (defined outside
`WebUserApi.cpp`).  It reports an unknown username and changes nothing then;
otherwise the account leaves the collection and the manager raises the
"removed" event, received by `on_UserRemoved`. -/
def WebUserManager.removeUser (st : ApiState) (aUserName : String) : Bool × ApiState :=
  match WebUserManager.getUser st aUserName with
  | none => (false, st)
  | some user =>
    (true, WebUserApi.on_UserRemoved
      { st with users := st.users.filter fun u => u.userName != aUserName } user)

/-! ## Requests and handlers -/

/-- The status codes the handlers return (`websocketpp::http::status_code`):
those that occur in `WebUserApi.cpp`. -/
inductive StatusCode where
  | ok
  | bad_request
  | not_found
  deriving DecidableEq, Repr

/-- Modelled from the spec: the request object `ApiRequest`, declared outside
`WebUserApi.cpp`: the body received, and the response body and the error
message the handler may set. -/
structure ApiRequest where
  requestBody : Json
  responseBody : Option Json
  responseErrorStr : Option String

/-- Modelled from the spec: the method `ApiRequest::setResponseBody`, defined
outside `WebUserApi.cpp`: it sets the response body. -/
def ApiRequest.setResponseBody (aRequest : ApiRequest) (j : Json) : ApiRequest :=
  { aRequest with responseBody := some j }

/-- Modelled from the spec: the method `ApiRequest::setResponseErrorStr`, defined
outside `WebUserApi.cpp`: it sets the "plain message" of an error response. -/
def ApiRequest.setResponseErrorStr (aRequest : ApiRequest) (aError : String) : ApiRequest :=
  { aRequest with responseErrorStr := some aError }

/-- What a handler call leaves behind: the status it returns or the exception
it ends with, the state, and the request object. -/
structure Outcome where
  ret : Except ArgumentException StatusCode
  state : ApiState
  request : ApiRequest

/-- Modelled from the spec: the status the caller of a handler answers with
(the dispatcher is defined outside `WebUserApi.cpp`): the returned status, or
"bad-request (validation error, field-scoped)" for an exception. -/
def Outcome.status (o : Outcome) : StatusCode :=
  match o.ret with
  | .ok s => s
  | .error _ => .bad_request

/-- The constructor `WebUserApi::WebUserApi` (lines 42-55) for a manager holding
`aUsers`: an empty view and the three topics declared.  Registering the
listener is what makes the manager's events reach the `on_` callbacks;
the handler registrations are the request surface. -/
def WebUserApi.create (aUsers : List WebUser) : ApiState :=
  let st : ApiState :=
    { users := aUsers, view := { items := [] }, subscriptions := [], sent := [],
      serializeCalls := 0 }
  let st := SubscribableApiModule.createSubscription st "web_user_added"
  let st := SubscribableApiModule.createSubscription st "web_user_updated"
  SubscribableApiModule.createSubscription st "web_user_removed"

/-- The method `WebUserApi::getUsers` (lines 61-63). -/
def WebUserApi.getUsers (st : ApiState) : List WebUser :=
  WebUserManager.getUsers st

/-- The handler `WebUserApi::handleGetUsers` (lines 65-69).  Each entity
serialized counts in the ghost counter. -/
def WebUserApi.handleGetUsers (st : ApiState) (aRequest : ApiRequest) : Outcome :=
  let j := Serializer.serializeItemList WebUserApi.itemHandler (WebUserApi.getUsers st)
  let st := { st with serializeCalls := st.serializeCalls + (WebUserApi.getUsers st).length }
  let aRequest := aRequest.setResponseBody j
  { ret := .ok .ok, state := st, request := aRequest }

/-- The handler `WebUserApi::handleAddUser` (lines 71-86).  The new account is
a local object until `addUser` accepts it.  The `return` of line 82 follows a
`throwError`, which raises, and is never reached. -/
def WebUserApi.handleAddUser (st : ApiState) (aRequest : ApiRequest) : Outcome :=
  let reqJson := aRequest.requestBody
  match (JsonUtil.getField "username" reqJson false : Except ArgumentException String) with
  | .error e => { ret := .error e, state := st, request := aRequest }
  | .ok userName =>
    let user := WebUser.new userName ""
    match WebUserApi.parseUser user reqJson true with
    | (_, .error e) => { ret := .error e, state := st, request := aRequest }
    | (user, .ok ()) =>
      match WebUserManager.addUser st user with
      | (false, st) =>
        { ret := .error (JsonUtil.throwError "username" .ERROR_EXISTS
            "User with the same name exists"),
          state := st, request := aRequest }
      | (true, st) => { ret := .ok .ok, state := st, request := aRequest }

/-- The handler `WebUserApi::handleUpdateUser` (lines 88-103).  `user` designates
the manager's own object, so what `parseUser` did to it is in the collection
however `parseUser` ends. -/
def WebUserApi.handleUpdateUser (st : ApiState) (aRequest : ApiRequest) : Outcome :=
  let reqJson := aRequest.requestBody
  match (JsonUtil.getField "username" reqJson false : Except ArgumentException String) with
  | .error e => { ret := .error e, state := st, request := aRequest }
  | .ok userName =>
    match WebUserManager.getUser st userName with
    | none =>
      { ret := .ok .not_found, state := st,
        request := aRequest.setResponseErrorStr "User not found" }
    | some user =>
      match WebUserApi.parseUser user reqJson false with
      | (user, .error e) =>
        { ret := .error e, state := WebUserManager.assign st user, request := aRequest }
      | (user, .ok ()) =>
        let st := WebUserManager.updateUser (WebUserManager.assign st user) user
        { ret := .ok .ok, state := st, request := aRequest }

/-- The handler `WebUserApi::handleRemoveUser` (lines 105-116). -/
def WebUserApi.handleRemoveUser (st : ApiState) (aRequest : ApiRequest) : Outcome :=
  let reqJson := aRequest.requestBody
  match (JsonUtil.getField "username" reqJson false : Except ArgumentException String) with
  | .error e => { ret := .error e, state := st, request := aRequest }
  | .ok userName =>
    match WebUserManager.removeUser st userName with
    | (false, st) =>
      { ret := .ok .not_found, state := st,
        request := aRequest.setResponseErrorStr "User not found" }
    | (true, st) => { ret := .ok .ok, state := st, request := aRequest }


/-! ## The invariant of the collection, and sample data -/

/-- The data-model invariant of the collection: every username is non-empty and
no two accounts share a username. -/
def UsersInvariant (st : ApiState) : Prop :=
  (∀ u ∈ st.users, u.userName ≠ "") ∧ (st.users.map WebUser.userName).Nodup

instance (st : ApiState) : Decidable (UsersInvariant st) := by
  unfold UsersInvariant
  exact inferInstance

namespace Example

/-- An account named alice with the permission `admin`. -/
def alice : WebUser :=
  { userName := "alice", password := "old", permissions := ["admin"], activeSessions := 0,
    lastLogin := 0 }

/-- A freshly constructed module over a manager that holds alice. -/
def state : ApiState :=
  WebUserApi.create [alice]

/-- A request with the given body and nothing set in the response. -/
def request (j : Json) : ApiRequest :=
  { requestBody := j, responseBody := none, responseErrorStr := none }

/-- Add alice a second time. -/
def addAliceAgain : ApiRequest :=
  request (.obj [("username", .str "alice"), ("password", .str "secret"),
    ("permissions", .arr [.str "admin"])])

/-- Add carol without a password. -/
def addWithoutPassword : ApiRequest :=
  request (.obj [("username", .str "carol")])

/-- Add an account without a username. -/
def addWithoutUsername : ApiRequest :=
  request (.obj [("password", .str "secret")])

/-- Name bob, who was never added. -/
def nameBob : ApiRequest :=
  request (.obj [("username", .str "bob"), ("password", .num 7)])

/-- Carry a `username` field that is the empty string. -/
def emptyUsername : ApiRequest :=
  request (.obj [("username", .str "")])

/-- Update alice with an empty permission list and no password. -/
def updatePermissionsOnly : ApiRequest :=
  request (.obj [("username", .str "alice"), ("permissions", .arr [])])

/-- Update alice with a password and no permissions. -/
def updatePasswordOnly : ApiRequest :=
  request (.obj [("username", .str "alice"), ("password", .str "new")])

/-- Update alice with a well-formed password and permissions that are not a list. -/
def updateBadPermissions : ApiRequest :=
  request (.obj [("username", .str "alice"), ("password", .str "new"),
    ("permissions", .str "admin")])

end Example


/-! ## Auxiliary facts about `JsonUtil`, `parseUser` and the manager -/

theorem getField_string_ok (aFieldName : String) (j : Json) (s : String)
    (hfind : j.find aFieldName = some (.str s)) (hne : s ≠ "") :
    (JsonUtil.getField aFieldName j false : Except ArgumentException String) = .ok s := by
  simp [JsonUtil.getField, hfind, JsonUtil.parseValue, JsonField.get, JsonField.isEmpty, hne]

theorem getField_missing (aFieldName : String) (j : Json) (hfind : j.find aFieldName = none) :
    (JsonUtil.getField aFieldName j false : Except ArgumentException String) =
      .error ⟨aFieldName, .ERROR_MISSING, "Field missing"⟩ := by
  simp [JsonUtil.getField, hfind, JsonUtil.throwError]

theorem getField_string_empty (aFieldName : String) (j : Json)
    (hfind : j.find aFieldName = some (.str "")) :
    (JsonUtil.getField aFieldName j false : Except ArgumentException String) =
      .error ⟨aFieldName, .ERROR_INVALID, "Field can't be empty"⟩ := by
  simp [JsonUtil.getField, hfind, JsonUtil.parseValue, JsonField.get, JsonField.isEmpty,
    JsonUtil.throwError]

theorem asStringList_map_str (q : List String) :
    Json.asStringList (q.map Json.str) = some q := by
  induction q with
  | nil => rfl
  | cons a q ih => simp [Json.asStringList, Json.asString, ih]

theorem getOptionalField_absent {T : Type} [JsonField T] (aFieldName : String) (j : Json)
    (hfind : j.find aFieldName = none) :
    (JsonUtil.getOptionalField aFieldName j false false : Except ArgumentException (Option T)) =
      .ok none := by
  simp [JsonUtil.getOptionalField, hfind]

theorem getOptionalField_list_ok (aFieldName : String) (j : Json) (q : List String)
    (hfind : j.find aFieldName = some (.arr (q.map Json.str))) :
    (JsonUtil.getOptionalField aFieldName j false false :
      Except ArgumentException (Option (List String))) = .ok (some q) := by
  simp [JsonUtil.getOptionalField, hfind, JsonUtil.parseValue, JsonField.get,
    JsonField.isEmpty, asStringList_map_str, Except.map]

theorem getOptionalField_string_ok (aFieldName : String) (j : Json) (s : String) (b : Bool)
    (hfind : j.find aFieldName = some (.str s)) (hne : s ≠ "") :
    (JsonUtil.getOptionalField aFieldName j false b :
      Except ArgumentException (Option String)) = .ok (some s) := by
  cases b <;>
  simp [JsonUtil.getOptionalField, JsonUtil.getField, hfind, JsonUtil.parseValue, JsonField.get,
    JsonField.isEmpty, Except.map, hne]

theorem getOptionalField_mandatory_missing (aFieldName : String) (j : Json)
    (hfind : j.find aFieldName = none) :
    (JsonUtil.getOptionalField aFieldName j false true :
      Except ArgumentException (Option String)) =
      .error ⟨aFieldName, .ERROR_MISSING, "Field missing"⟩ := by
  simp [JsonUtil.getOptionalField, JsonUtil.getField, hfind, Except.map, JsonUtil.throwError]


theorem parseUser_userName (u : WebUser) (j : Json) (b : Bool) :
    (WebUserApi.parseUser u j b).1.userName = u.userName := by
  unfold WebUserApi.parseUser
  repeat' split
  all_goals simp [WebUser.setPassword, WebUser.setPermissions]

theorem parseUser_password_absent (u : WebUser) (j : Json)
    (hfind : j.find "password" = none) :
    (WebUserApi.parseUser u j false).1.password = u.password := by
  unfold WebUserApi.parseUser
  rw [getOptionalField_absent "password" j hfind]
  dsimp only
  repeat' split
  all_goals simp [WebUser.setPassword, WebUser.setPermissions]

theorem parseUser_permissions_absent (u : WebUser) (j : Json) (b : Bool)
    (hfind : j.find "permissions" = none) :
    (WebUserApi.parseUser u j b).1.permissions = u.permissions := by
  unfold WebUserApi.parseUser
  rw [getOptionalField_absent "permissions" j hfind]
  dsimp only
  repeat' split
  all_goals simp [WebUser.setPassword, WebUser.setPermissions]

theorem parseUser_permissions_ok (u : WebUser) (j : Json) (b : Bool) (q : List String)
    (hfind : j.find "permissions" = some (.arr (q.map Json.str)))
    (hok : (WebUserApi.parseUser u j b).2 = .ok ()) :
    (WebUserApi.parseUser u j b).1.permissions = q := by
  unfold WebUserApi.parseUser at hok ⊢
  rw [getOptionalField_list_ok "permissions" j q hfind] at hok ⊢
  dsimp only at hok ⊢
  split
  · rename_i e he
    rw [he] at hok
    simp at hok
  · simp [WebUser.setPermissions]

theorem parseUser_ok (u : WebUser) (j : Json) (b : Bool)
    (hpw : (∃ p, j.find "password" = some (.str p) ∧ p ≠ "") ∨
      (b = false ∧ j.find "password" = none))
    (hperm : ∀ v, j.find "permissions" = some v → ∃ q : List String, v = .arr (q.map Json.str)) :
    (WebUserApi.parseUser u j b).2 = .ok () := by
  unfold WebUserApi.parseUser
  have h1 : ∃ r, (JsonUtil.getOptionalField "password" j false b :
      Except ArgumentException (Option String)) = .ok r := by
    rcases hpw with ⟨p, hp, hne⟩ | ⟨hb, hp⟩
    · exact ⟨some p, getOptionalField_string_ok _ _ _ _ hp hne⟩
    · subst hb
      exact ⟨none, getOptionalField_absent _ _ hp⟩
  have h2 : ∃ r, (JsonUtil.getOptionalField "permissions" j false false :
      Except ArgumentException (Option (List String))) = .ok r := by
    cases hf : j.find "permissions" with
    | none => exact ⟨none, getOptionalField_absent _ _ hf⟩
    | some v =>
      obtain ⟨q, hq⟩ := hperm v hf
      subst hq
      exact ⟨some q, getOptionalField_list_ok _ _ _ hf⟩
  obtain ⟨r1, h1⟩ := h1
  obtain ⟨r2, h2⟩ := h2
  rw [h1, h2]

theorem parseUser_new_password_missing (u : WebUser) (j : Json)
    (hfind : j.find "password" = none) :
    WebUserApi.parseUser u j true =
      (u, .error ⟨"password", .ERROR_MISSING, "Field missing"⟩) := by
  unfold WebUserApi.parseUser
  rw [getOptionalField_mandatory_missing "password" j hfind]


theorem getUser_eq_none (st : ApiState) (name : String)
    (h : ∀ u ∈ st.users, u.userName ≠ name) : WebUserManager.getUser st name = none := by
  unfold WebUserManager.getUser
  rw [List.find?_eq_none]
  intro u hu
  simpa using h u hu

theorem getUser_some (st : ApiState) (name : String) (u : WebUser)
    (h : WebUserManager.getUser st name = some u) : u ∈ st.users ∧ u.userName = name := by
  unfold WebUserManager.getUser at h
  exact ⟨List.mem_of_find?_eq_some h, by simpa using List.find?_some h⟩

theorem getUser_of_mem (st : ApiState) (name : String) (u : WebUser) (hu : u ∈ st.users)
    (hn : u.userName = name) : ∃ v, WebUserManager.getUser st name = some v := by
  cases h : WebUserManager.getUser st name with
  | some v => exact ⟨v, rfl⟩
  | none =>
    unfold WebUserManager.getUser at h
    rw [List.find?_eq_none] at h
    have := h u hu
    simp [hn] at this

theorem assignIn_map_userName (us : List WebUser) (v : WebUser) :
    (WebUserManager.assignIn us v).map WebUser.userName = us.map WebUser.userName := by
  induction us with
  | nil => rfl
  | cons u us ih =>
    unfold WebUserManager.assignIn
    split
    · rename_i h
      simp at h
      simp [h]
    · simp [ih]

theorem find_assignIn (us : List WebUser) (u v : WebUser)
    (h : us.find? (fun w => w.userName == v.userName) = some u) :
    (WebUserManager.assignIn us v).find? (fun w => w.userName == v.userName) = some v := by
  induction us with
  | nil => simp at h
  | cons w us ih =>
    unfold WebUserManager.assignIn
    by_cases hw : w.userName = v.userName
    · simp [hw]
    · have hw' : (w.userName == v.userName) = false := by simpa using hw
      rw [List.find?_cons, hw'] at h
      simp only [hw', Bool.false_eq_true, ↓reduceIte]
      rw [List.find?_cons, hw']
      exact ih h

theorem maybeSend_users (st : ApiState) (topic : String) (cb : JsonCallback) :
    (SubscribableApiModule.maybeSend st topic cb).users = st.users := by
  unfold SubscribableApiModule.maybeSend
  split <;> rfl

theorem on_UserAdded_users (st : ApiState) (u : WebUser) :
    (WebUserApi.on_UserAdded st u).users = st.users := by
  simp [WebUserApi.on_UserAdded, maybeSend_users]

theorem on_UserUpdated_users (st : ApiState) (u : WebUser) :
    (WebUserApi.on_UserUpdated st u).users = st.users := by
  simp [WebUserApi.on_UserUpdated, maybeSend_users]

theorem on_UserRemoved_users (st : ApiState) (u : WebUser) :
    (WebUserApi.on_UserRemoved st u).users = st.users := by
  simp [WebUserApi.on_UserRemoved, maybeSend_users]


theorem parseUser_eq_of_ok (u : WebUser) (j : Json) (b : Bool)
    (h : (WebUserApi.parseUser u j b).2 = .ok ()) :
    WebUserApi.parseUser u j b = ((WebUserApi.parseUser u j b).1, .ok ()) :=
  Prod.ext rfl h

/-- Claim C1.  An add request whose username is that of an account already in the
collection, with an otherwise valid payload (a non-empty password, and the
permissions absent or a list of strings), ends with the validation error on
field `username` of kind `ERROR_EXISTS`, answered as bad-request, and leaves
the state, hence the collection, as it was. -/
theorem handleAddUser_existing_username (st : ApiState) (aRequest : ApiRequest)
    (name pw : String) (u : WebUser)
    (hname : aRequest.requestBody.find "username" = some (.str name)) (hne : name ≠ "")
    (hpw : aRequest.requestBody.find "password" = some (.str pw)) (hpwne : pw ≠ "")
    (hperm : ∀ v, aRequest.requestBody.find "permissions" = some v →
      ∃ q : List String, v = .arr (q.map Json.str))
    (hu : u ∈ st.users) (hun : u.userName = name) :
    WebUserApi.handleAddUser st aRequest =
        { ret := .error ⟨"username", .ERROR_EXISTS, "User with the same name exists"⟩,
          state := st, request := aRequest } ∧
      (WebUserApi.handleAddUser st aRequest).status = .bad_request ∧
      (WebUserApi.handleAddUser st aRequest).state.users = st.users := by
  have hres : WebUserApi.handleAddUser st aRequest =
      { ret := .error ⟨"username", .ERROR_EXISTS, "User with the same name exists"⟩,
        state := st, request := aRequest } := by
    have hparse := parseUser_ok (WebUser.new name "") aRequest.requestBody true
      (Or.inl ⟨pw, hpw, hpwne⟩) hperm
    obtain ⟨v, hv⟩ := getUser_of_mem st name u hu hun
    have hn : (WebUserApi.parseUser (WebUser.new name "") aRequest.requestBody true).1.userName
        = name := by
      rw [parseUser_userName]; rfl
    unfold WebUserApi.handleAddUser
    simp only [getField_string_ok "username" _ name hname hne]
    rw [parseUser_eq_of_ok _ _ _ hparse]
    simp only [WebUserManager.addUser, hn, hv, JsonUtil.throwError]
  rw [hres]
  exact ⟨rfl, rfl, rfl⟩


/-- Witness for claim C1: alice is added a second time. -/
theorem handleAddUser_existing_username_witness :
    WebUserApi.handleAddUser Example.state Example.addAliceAgain =
        { ret := .error ⟨"username", .ERROR_EXISTS, "User with the same name exists"⟩,
          state := Example.state, request := Example.addAliceAgain } ∧
      (WebUserApi.handleAddUser Example.state Example.addAliceAgain).status = .bad_request ∧
      (WebUserApi.handleAddUser Example.state Example.addAliceAgain).state.users =
        Example.state.users :=
  handleAddUser_existing_username Example.state Example.addAliceAgain "alice" "secret"
    Example.alice rfl (by decide) rfl (by decide)
    (fun _ hv => ⟨["admin"], (Option.some.inj hv).symm⟩)
    (List.mem_singleton.mpr rfl) rfl

/-- Claim C4, as amended.  For a request whose username is a non-empty string
that is not the username of any account in the collection, `handleUpdateUser`
and `handleRemoveUser` each return not-found with the error text
"User not found" and leave the whole state as it was; the rest of the payload
plays no part, so it is not parsed, and no update reaches the manager. -/
theorem unknown_username_not_found (st : ApiState) (aRequest : ApiRequest) (name : String)
    (hname : aRequest.requestBody.find "username" = some (.str name)) (hne : name ≠ "")
    (hnot : ∀ u ∈ st.users, u.userName ≠ name) :
    WebUserApi.handleUpdateUser st aRequest =
        { ret := .ok .not_found, state := st,
          request := aRequest.setResponseErrorStr "User not found" } ∧
      WebUserApi.handleRemoveUser st aRequest =
        { ret := .ok .not_found, state := st,
          request := aRequest.setResponseErrorStr "User not found" } := by
  have hget := getUser_eq_none st name hnot
  constructor
  · unfold WebUserApi.handleUpdateUser
    simp only [getField_string_ok "username" _ name hname hne, hget]
  · unfold WebUserApi.handleRemoveUser
    simp only [getField_string_ok "username" _ name hname hne, WebUserManager.removeUser, hget]

/-- Witness for claim C4: bob, who was never added, is named with a malformed
password in the payload. -/
theorem unknown_username_not_found_witness :
    WebUserApi.handleUpdateUser Example.state Example.nameBob =
        { ret := .ok .not_found, state := Example.state,
          request := Example.nameBob.setResponseErrorStr "User not found" } ∧
      WebUserApi.handleRemoveUser Example.state Example.nameBob =
        { ret := .ok .not_found, state := Example.state,
          request := Example.nameBob.setResponseErrorStr "User not found" } :=
  unknown_username_not_found Example.state Example.nameBob "bob" rfl (by decide) (by decide)

/-- Counterexample to claim C4 as first stated (for every request whose username
is not that of any account).  The module holds alice only and the request
carries the username `""`, which no account has; `getField` is called with
`false` on lines 91 and 108 and refuses the empty string, so both handlers end
with the validation error on `username` of kind `ERROR_INVALID`: neither
returns not-found and neither sets the error text.  Hence the statement without
the non-emptiness condition is false. -/
theorem unknown_username_empty_is_validation_error :
    Example.emptyUsername.requestBody.find "username" = some (.str "") ∧
      (∀ u ∈ Example.state.users, u.userName ≠ "") ∧
      (∃ e : ArgumentException,
        (WebUserApi.handleUpdateUser Example.state Example.emptyUsername).ret = .error e ∧
        e.field = "username" ∧ e.type = .ERROR_INVALID) ∧
      (WebUserApi.handleUpdateUser Example.state Example.emptyUsername).ret ≠ .ok .not_found ∧
      (WebUserApi.handleUpdateUser Example.state Example.emptyUsername).request.responseErrorStr
        = none ∧
      (∃ e : ArgumentException,
        (WebUserApi.handleRemoveUser Example.state Example.emptyUsername).ret = .error e ∧
        e.field = "username" ∧ e.type = .ERROR_INVALID) ∧
      (WebUserApi.handleRemoveUser Example.state Example.emptyUsername).ret ≠ .ok .not_found ∧
      (WebUserApi.handleRemoveUser Example.state Example.emptyUsername).request.responseErrorStr
        = none ∧
      ¬ (∀ (st : ApiState) (aRequest : ApiRequest) (name : String),
          aRequest.requestBody.find "username" = some (.str name) →
          (∀ u ∈ st.users, u.userName ≠ name) →
          (WebUserApi.handleUpdateUser st aRequest).ret = .ok .not_found ∧
            (WebUserApi.handleRemoveUser st aRequest).ret = .ok .not_found) := by
  have hupd : (WebUserApi.handleUpdateUser Example.state Example.emptyUsername).ret =
      .error ⟨"username", .ERROR_INVALID, "Field can't be empty"⟩ := rfl
  have hrem : (WebUserApi.handleRemoveUser Example.state Example.emptyUsername).ret =
      .error ⟨"username", .ERROR_INVALID, "Field can't be empty"⟩ := rfl
  have hnone : ∀ u ∈ Example.state.users, u.userName ≠ "" := by decide
  refine ⟨rfl, hnone, ⟨_, hupd, rfl, rfl⟩, ?_, rfl, ⟨_, hrem, rfl, rfl⟩, ?_, rfl, ?_⟩
  · rw [hupd]
    intro h
    cases h
  · rw [hrem]
    intro h
    cases h
  · intro hall
    have h := (hall Example.state Example.emptyUsername "" rfl hnone).1
    rw [hupd] at h
    cases h

/-- Claim C5.  The password is mandatory on creation and optional on update: an
add request without a `password` field ends with a validation error (on
`username`, or on `password` with kind `ERROR_MISSING`; never the
`ERROR_EXISTS` raised after `addUser`) and leaves the state as it was, whereas
an update request that names an existing account, has no `password` field and
has its permissions absent or a list of strings returns success. -/
theorem password_mandatory_on_add_optional_on_update (st : ApiState) (aRequest : ApiRequest)
    (hpw : aRequest.requestBody.find "password" = none) :
    (∃ e : ArgumentException,
        WebUserApi.handleAddUser st aRequest =
          { ret := .error e, state := st, request := aRequest } ∧
        (WebUserApi.handleAddUser st aRequest).status = .bad_request ∧
        e.type ≠ .ERROR_EXISTS ∧
        (e.field = "username" ∨ (e.field = "password" ∧ e.type = .ERROR_MISSING))) ∧
      (∀ (name : String) (u : WebUser),
        aRequest.requestBody.find "username" = some (.str name) → name ≠ "" →
        u ∈ st.users → u.userName = name →
        (∀ v, aRequest.requestBody.find "permissions" = some v →
          ∃ q : List String, v = .arr (q.map Json.str)) →
        (WebUserApi.handleUpdateUser st aRequest).ret = .ok .ok) := by
  constructor
  · cases hf : (JsonUtil.getField "username" aRequest.requestBody false :
        Except ArgumentException String) with
    | error e =>
      have hres : WebUserApi.handleAddUser st aRequest =
          { ret := .error e, state := st, request := aRequest } := by
        unfold WebUserApi.handleAddUser
        simp only [hf]
      refine ⟨e, hres, by rw [hres]; rfl, ?_, Or.inl ?_⟩
      · unfold JsonUtil.getField at hf
        split at hf
        · injection hf with hf; subst hf; simp [JsonUtil.throwError]
        · unfold JsonUtil.parseValue at hf
          repeat' split at hf
          all_goals first
            | (injection hf with hf; subst hf; simp [JsonUtil.throwError])
            | simp at hf
      · unfold JsonUtil.getField at hf
        split at hf
        · injection hf with hf; subst hf; rfl
        · unfold JsonUtil.parseValue at hf
          repeat' split at hf
          all_goals first
            | (injection hf with hf; subst hf; rfl)
            | simp at hf
    | ok name =>
      have hres : WebUserApi.handleAddUser st aRequest =
          { ret := .error ⟨"password", .ERROR_MISSING, "Field missing"⟩, state := st,
            request := aRequest } := by
        unfold WebUserApi.handleAddUser
        simp only [hf, parseUser_new_password_missing _ _ hpw]
      exact ⟨_, hres, by rw [hres]; rfl, by simp, Or.inr ⟨rfl, rfl⟩⟩
  · intro name u hname hne hu hun hperm
    obtain ⟨v, hv⟩ := getUser_of_mem st name u hu hun
    have hparse := parseUser_ok v aRequest.requestBody false (Or.inr ⟨rfl, hpw⟩) hperm
    unfold WebUserApi.handleUpdateUser
    simp only [getField_string_ok "username" _ name hname hne, hv]
    rw [parseUser_eq_of_ok _ _ _ hparse]


/-- Witness for claim C5: carol is added without a password; alice is updated
without one. -/
theorem password_mandatory_on_add_optional_on_update_witness :
    (∃ e : ArgumentException,
        WebUserApi.handleAddUser Example.state Example.addWithoutPassword =
          { ret := .error e, state := Example.state, request := Example.addWithoutPassword } ∧
        (WebUserApi.handleAddUser Example.state Example.addWithoutPassword).status
          = .bad_request ∧
        e.type ≠ .ERROR_EXISTS ∧
        (e.field = "username" ∨ (e.field = "password" ∧ e.type = .ERROR_MISSING))) ∧
      (WebUserApi.handleUpdateUser Example.state Example.updatePermissionsOnly).ret = .ok .ok :=
  ⟨(password_mandatory_on_add_optional_on_update Example.state Example.addWithoutPassword rfl).1,
    (password_mandatory_on_add_optional_on_update Example.state Example.updatePermissionsOnly
      rfl).2 "alice" Example.alice rfl (by decide) (List.mem_singleton.mpr rfl) rfl
      (fun _ hv => ⟨[], (Option.some.inj hv).symm⟩)⟩

theorem handleUpdateUser_existing (st : ApiState) (aRequest : ApiRequest) (name : String)
    (u : WebUser)
    (hname : aRequest.requestBody.find "username" = some (.str name)) (hne : name ≠ "")
    (hget : WebUserManager.getUser st name = some u) :
    (WebUserApi.handleUpdateUser st aRequest).state.users =
        WebUserManager.assignIn st.users (WebUserApi.parseUser u aRequest.requestBody false).1 ∧
      (WebUserApi.handleUpdateUser st aRequest).ret =
        (WebUserApi.parseUser u aRequest.requestBody false).2.map fun _ => StatusCode.ok := by
  unfold WebUserApi.handleUpdateUser
  simp only [getField_string_ok "username" _ name hname hne, hget]
  rcases hp : WebUserApi.parseUser u aRequest.requestBody false with ⟨v, r⟩
  cases r with
  | error e => exact ⟨rfl, rfl⟩
  | ok x =>
    cases x
    simp only [WebUserManager.updateUser, on_UserUpdated_users]
    exact ⟨rfl, rfl⟩

theorem getUser_handleUpdateUser (st : ApiState) (aRequest : ApiRequest) (name : String)
    (u : WebUser)
    (hname : aRequest.requestBody.find "username" = some (.str name)) (hne : name ≠ "")
    (hget : WebUserManager.getUser st name = some u) :
    WebUserManager.getUser (WebUserApi.handleUpdateUser st aRequest).state name =
      some (WebUserApi.parseUser u aRequest.requestBody false).1 := by
  have hu := (getUser_some st name u hget).2
  have hv : (WebUserApi.parseUser u aRequest.requestBody false).1.userName = name := by
    rw [parseUser_userName, hu]
  have h1 := (handleUpdateUser_existing st aRequest name u hname hne hget).1
  unfold WebUserManager.getUser at hget ⊢
  rw [h1]
  rw [← hv] at hget ⊢
  exact find_assignIn st.users u _ hget

/-- Claim C3.  For an update request that names an existing account: when the
payload has no `password` field the stored password after the call is the one
before it, and when the payload has no `permissions` field the stored
permission set after the call is the one before it (whatever else the payload
holds and however the call ends). -/
theorem handleUpdateUser_absent_field_untouched (st : ApiState) (aRequest : ApiRequest)
    (name : String) (u : WebUser)
    (hname : aRequest.requestBody.find "username" = some (.str name)) (hne : name ≠ "")
    (hget : WebUserManager.getUser st name = some u) :
    (aRequest.requestBody.find "password" = none →
        ∃ v, WebUserManager.getUser (WebUserApi.handleUpdateUser st aRequest).state name = some v ∧
          v.password = u.password) ∧
      (aRequest.requestBody.find "permissions" = none →
        ∃ v, WebUserManager.getUser (WebUserApi.handleUpdateUser st aRequest).state name = some v ∧
          v.permissions = u.permissions) := by
  have h := getUser_handleUpdateUser st aRequest name u hname hne hget
  exact ⟨fun hp => ⟨_, h, parseUser_password_absent u _ hp⟩,
    fun hp => ⟨_, h, parseUser_permissions_absent u _ false hp⟩⟩

/-- Witness for claim C3: alice is updated with permissions only, and with a
password only. -/
theorem handleUpdateUser_absent_field_untouched_witness :
    (∃ v, WebUserManager.getUser
        (WebUserApi.handleUpdateUser Example.state Example.updatePermissionsOnly).state "alice"
          = some v ∧ v.password = Example.alice.password) ∧
      (∃ v, WebUserManager.getUser
        (WebUserApi.handleUpdateUser Example.state Example.updatePasswordOnly).state "alice"
          = some v ∧ v.permissions = Example.alice.permissions) :=
  ⟨(handleUpdateUser_absent_field_untouched Example.state Example.updatePermissionsOnly "alice"
      Example.alice rfl (by decide) rfl).1 rfl,
    (handleUpdateUser_absent_field_untouched Example.state Example.updatePasswordOnly "alice"
      Example.alice rfl (by decide) rfl).2 rfl⟩

/-- Claim C6.  When an update request that names an existing account carries a
`permissions` field that is a list `q` of strings and the call succeeds, the
stored account then has exactly the permissions `q`, whatever it had before,
and still the same username; the usernames of the collection are the same as
before. With `q` empty the account is left without permissions. -/
theorem handleUpdateUser_replaces_permissions (st : ApiState) (aRequest : ApiRequest)
    (name : String) (u : WebUser) (q : List String)
    (hname : aRequest.requestBody.find "username" = some (.str name)) (hne : name ≠ "")
    (hget : WebUserManager.getUser st name = some u)
    (hperm : aRequest.requestBody.find "permissions" = some (.arr (q.map Json.str)))
    (hok : (WebUserApi.handleUpdateUser st aRequest).ret = .ok .ok) :
    (∃ v, WebUserManager.getUser (WebUserApi.handleUpdateUser st aRequest).state name = some v ∧
        v.permissions = q ∧ v.userName = name ∧ (q = [] → v.permissions = [])) ∧
      (WebUserApi.handleUpdateUser st aRequest).state.users.map WebUser.userName =
        st.users.map WebUser.userName := by
  have h := getUser_handleUpdateUser st aRequest name u hname hne hget
  have hex := handleUpdateUser_existing st aRequest name u hname hne hget
  have hparse : (WebUserApi.parseUser u aRequest.requestBody false).2 = .ok () := by
    rw [hex.2] at hok
    cases hr : (WebUserApi.parseUser u aRequest.requestBody false).2 with
    | error e => rw [hr] at hok; simp [Except.map] at hok
    | ok x => rfl
  have hq := parseUser_permissions_ok u _ false q hperm hparse
  refine ⟨⟨_, h, hq, ?_, fun hq0 => hq0 ▸ hq⟩, ?_⟩
  · rw [parseUser_userName]; exact (getUser_some st name u hget).2
  · rw [hex.1, assignIn_map_userName]


/-- Witness for claim C6: alice, who holds `admin`, is updated with an empty
permission list. -/
theorem handleUpdateUser_replaces_permissions_witness :
    (∃ v, WebUserManager.getUser
        (WebUserApi.handleUpdateUser Example.state Example.updatePermissionsOnly).state "alice"
          = some v ∧
        v.permissions = [] ∧ v.userName = "alice" ∧ (([] : List String) = [] → v.permissions = [])) ∧
      (WebUserApi.handleUpdateUser Example.state Example.updatePermissionsOnly).state.users.map
        WebUser.userName = Example.state.users.map WebUser.userName :=
  handleUpdateUser_replaces_permissions Example.state Example.updatePermissionsOnly "alice"
    Example.alice [] rfl (by decide) rfl rfl rfl

theorem usersInvariant_of_names (st st' : ApiState)
    (h : st'.users.map WebUser.userName = st.users.map WebUser.userName)
    (hinv : UsersInvariant st) : UsersInvariant st' := by
  obtain ⟨h1, h2⟩ := hinv
  refine ⟨?_, h ▸ h2⟩
  intro u hu
  have hm : u.userName ∈ st'.users.map WebUser.userName := List.mem_map_of_mem _ hu
  rw [h] at hm
  obtain ⟨w, hw, hwn⟩ := List.mem_map.mp hm
  rw [← hwn]
  exact h1 w hw

theorem usersInvariant_of_sublist (st st' : ApiState) (h : st'.users.Sublist st.users)
    (hinv : UsersInvariant st) : UsersInvariant st' :=
  ⟨fun u hu => hinv.1 u (h.subset hu), hinv.2.sublist (h.map _)⟩

theorem getField_string_ne_empty (aFieldName : String) (j : Json) (s : String)
    (h : (JsonUtil.getField aFieldName j false : Except ArgumentException String) = .ok s) :
    s ≠ "" := by
  unfold JsonUtil.getField at h
  cases hfind : j.find aFieldName with
  | none => simp [hfind] at h
  | some v =>
    rw [hfind] at h
    cases v with
    | str t =>
      by_cases ht : t = ""
      · simp [JsonUtil.parseValue, JsonField.get, JsonField.isEmpty, ht] at h
      · simp [JsonUtil.parseValue, JsonField.get, JsonField.isEmpty, ht] at h
        exact h ▸ ht
    | _ => simp [JsonUtil.parseValue, JsonField.get] at h

theorem handleUpdateUser_names (st : ApiState) (aRequest : ApiRequest) :
    (WebUserApi.handleUpdateUser st aRequest).state.users.map WebUser.userName =
      st.users.map WebUser.userName := by
  cases hf : (JsonUtil.getField "username" aRequest.requestBody false :
      Except ArgumentException String) with
  | error e =>
    unfold WebUserApi.handleUpdateUser
    simp only [hf]
  | ok userName =>
    cases hg : WebUserManager.getUser st userName with
    | none =>
      unfold WebUserApi.handleUpdateUser
      simp only [hf, hg]
    | some user =>
      rcases hp : WebUserApi.parseUser user aRequest.requestBody false with ⟨v, r⟩
      cases r with
      | error e =>
        unfold WebUserApi.handleUpdateUser
        simp only [hf, hg, hp, WebUserManager.assign, assignIn_map_userName]
      | ok x =>
        cases x
        unfold WebUserApi.handleUpdateUser
        simp only [hf, hg, hp, WebUserManager.updateUser, on_UserUpdated_users,
          WebUserManager.assign, assignIn_map_userName]

theorem removeUser_sublist (st : ApiState) (aUserName : String) :
    (WebUserManager.removeUser st aUserName).2.users.Sublist st.users := by
  unfold WebUserManager.removeUser
  cases hg : WebUserManager.getUser st aUserName with
  | none => exact List.Sublist.refl _
  | some user =>
    simp only [on_UserRemoved_users]
    exact List.filter_sublist _

theorem handleRemoveUser_sublist (st : ApiState) (aRequest : ApiRequest) :
    (WebUserApi.handleRemoveUser st aRequest).state.users.Sublist st.users := by
  cases hf : (JsonUtil.getField "username" aRequest.requestBody false :
      Except ArgumentException String) with
  | error e =>
    unfold WebUserApi.handleRemoveUser
    simp only [hf]
    exact List.Sublist.refl _
  | ok userName =>
    have hrem := removeUser_sublist st userName
    rcases hr : WebUserManager.removeUser st userName with ⟨b, st1⟩
    rw [hr] at hrem
    unfold WebUserApi.handleRemoveUser
    cases b <;> simp only [hf, hr] <;> exact hrem

theorem handleAddUser_users (st : ApiState) (aRequest : ApiRequest) :
    (WebUserApi.handleAddUser st aRequest).state.users = st.users ∨
      ∃ user : WebUser, user.userName ≠ "" ∧ (∀ u ∈ st.users, u.userName ≠ user.userName) ∧
        (WebUserApi.handleAddUser st aRequest).state.users = st.users ++ [user] := by
  cases hf : (JsonUtil.getField "username" aRequest.requestBody false :
      Except ArgumentException String) with
  | error e =>
    left
    unfold WebUserApi.handleAddUser
    simp only [hf]
  | ok userName =>
    have hne := getField_string_ne_empty _ _ _ hf
    have hun := parseUser_userName (WebUser.new userName "") aRequest.requestBody true
    rcases hp : WebUserApi.parseUser (WebUser.new userName "") aRequest.requestBody true
      with ⟨user, r⟩
    rw [hp] at hun
    cases r with
    | error e =>
      left
      unfold WebUserApi.handleAddUser
      simp only [hf, hp]
    | ok x =>
      cases x
      replace hun : user.userName = userName := hun
      cases hg : WebUserManager.getUser st user.userName with
      | some v =>
        left
        unfold WebUserApi.handleAddUser
        simp only [hf, hp, WebUserManager.addUser, hg]
      | none =>
        right
        refine ⟨user, hun ▸ hne, ?_, ?_⟩
        · intro u hu hcontra
          unfold WebUserManager.getUser at hg
          rw [List.find?_eq_none] at hg
          have := hg u hu
          simp [hcontra] at this
        · unfold WebUserApi.handleAddUser
          simp only [hf, hp, WebUserManager.addUser, hg, on_UserAdded_users]

theorem handleAddUser_invariant (st : ApiState) (aRequest : ApiRequest)
    (hinv : UsersInvariant st) : UsersInvariant (WebUserApi.handleAddUser st aRequest).state := by
  rcases handleAddUser_users st aRequest with h | ⟨user, hne, hfresh, h⟩
  · exact usersInvariant_of_names _ _ (by rw [h]) hinv
  · refine ⟨?_, ?_⟩
    · intro u hu
      rw [h, List.mem_append, List.mem_singleton] at hu
      rcases hu with hu | hu
      · exact hinv.1 u hu
      · exact hu ▸ hne
    · rw [h, List.map_append, List.map_singleton]
      refine List.Nodup.append hinv.2 (List.nodup_singleton _) ?_
      intro n hn hn'
      rw [List.mem_singleton] at hn'
      obtain ⟨w, hw, hwn⟩ := List.mem_map.mp hn
      exact hfresh w hw (hwn.trans hn')

/-- Claim C7.  The invariant "every stored username is non-empty and usernames
are pairwise distinct" holds after `handleAddUser`, `handleUpdateUser` and
`handleRemoveUser` whenever it holds before, however the call ends; and an add
request whose `username` is missing or empty ends with a validation error on
that field, answered as bad-request, with the state as it was. -/
theorem handlers_preserve_usersInvariant (st : ApiState) (aRequest : ApiRequest)
    (hinv : UsersInvariant st) :
    UsersInvariant (WebUserApi.handleAddUser st aRequest).state ∧
      UsersInvariant (WebUserApi.handleUpdateUser st aRequest).state ∧
      UsersInvariant (WebUserApi.handleRemoveUser st aRequest).state ∧
      ((aRequest.requestBody.find "username" = none ∨
          aRequest.requestBody.find "username" = some (.str "")) →
        ∃ e : ArgumentException,
          WebUserApi.handleAddUser st aRequest =
            { ret := .error e, state := st, request := aRequest } ∧
          e.field = "username" ∧
          (WebUserApi.handleAddUser st aRequest).status = .bad_request) := by
  refine ⟨handleAddUser_invariant st aRequest hinv,
    usersInvariant_of_names _ _ (handleUpdateUser_names st aRequest) hinv,
    usersInvariant_of_sublist _ _ (handleRemoveUser_sublist st aRequest) hinv, ?_⟩
  intro h
  rcases h with h | h
  · have hres : WebUserApi.handleAddUser st aRequest =
        { ret := .error ⟨"username", .ERROR_MISSING, "Field missing"⟩, state := st,
          request := aRequest } := by
      unfold WebUserApi.handleAddUser
      simp only [getField_missing "username" _ h]
    exact ⟨_, hres, rfl, by rw [hres]; rfl⟩
  · have hres : WebUserApi.handleAddUser st aRequest =
        { ret := .error ⟨"username", .ERROR_INVALID, "Field can't be empty"⟩, state := st,
          request := aRequest } := by
      unfold WebUserApi.handleAddUser
      simp only [getField_string_empty "username" _ h]
    exact ⟨_, hres, rfl, by rw [hres]; rfl⟩


/-- Witness for claim C7: a request without a username reaches the three
handlers of a module whose manager holds alice. -/
theorem handlers_preserve_usersInvariant_witness :
    UsersInvariant Example.state ∧
      UsersInvariant (WebUserApi.handleAddUser Example.state Example.addWithoutUsername).state ∧
      UsersInvariant (WebUserApi.handleUpdateUser Example.state Example.addWithoutUsername).state ∧
      UsersInvariant (WebUserApi.handleRemoveUser Example.state Example.addWithoutUsername).state ∧
      ∃ e : ArgumentException,
        WebUserApi.handleAddUser Example.state Example.addWithoutUsername =
          { ret := .error e, state := Example.state, request := Example.addWithoutUsername } ∧
        e.field = "username" ∧
        (WebUserApi.handleAddUser Example.state Example.addWithoutUsername).status
          = .bad_request :=
  have h := handlers_preserve_usersInvariant Example.state Example.addWithoutUsername
    (by decide)
  ⟨by decide, h.1, h.2.1, h.2.2.1, h.2.2.2 (Or.inl rfl)⟩

/-- Claim C8.  The handler `handleGetUsers` returns success and sets the response
body to a list with one record per account the manager holds at the call: as
many records as accounts, the record at each position being the serialization
of the account at that position; the collection, the view and the events sent
are as before. -/
theorem handleGetUsers_lists_every_user (st : ApiState) (aRequest : ApiRequest) :
    (WebUserApi.handleGetUsers st aRequest).ret = .ok .ok ∧
      (∃ records : List Json,
        (WebUserApi.handleGetUsers st aRequest).request.responseBody = some (.arr records) ∧
        records = (WebUserManager.getUsers st).map
          (fun u => Serializer.serializeItem u WebUserApi.itemHandler) ∧
        records.length = (WebUserManager.getUsers st).length ∧
        ∀ i : Nat, records[i]? = ((WebUserManager.getUsers st)[i]?).map
          (fun u => Serializer.serializeItem u WebUserApi.itemHandler)) ∧
      (WebUserApi.handleGetUsers st aRequest).state.users = st.users ∧
      (WebUserApi.handleGetUsers st aRequest).state.view = st.view ∧
      (WebUserApi.handleGetUsers st aRequest).state.sent = st.sent := by
  refine ⟨rfl, ⟨_, rfl, rfl, by simp [WebUserApi.getUsers], fun i => by simp [WebUserApi.getUsers]⟩,
    rfl, rfl, rfl⟩

theorem maybeSend_inactive (st : ApiState) (topic : String) (cb : JsonCallback)
    (h : SubscribableApiModule.subscriptionActive st topic = false) :
    SubscribableApiModule.maybeSend st topic cb = st := by
  simp [SubscribableApiModule.maybeSend, h]

theorem maybeSend_serializeCalls_le (st : ApiState) (topic : String) (u : WebUser) :
    (SubscribableApiModule.maybeSend st topic (WebUserApi.serializeCallback u)).serializeCalls
      ≤ st.serializeCalls + 1 := by
  unfold SubscribableApiModule.maybeSend
  split
  · simp [WebUserApi.serializeCallback]
  · exact Nat.le_succ _

/-- Claim C9.  For each of the three listener callbacks: when the matching topic
(`web_user_added`, `web_user_updated`, `web_user_removed`) is not enabled, the
callback applies the matching view mutator, performs no serialization and sends
no event; and in every state the callback performs at most one serialization. -/
theorem listener_subscription_gating (st : ApiState) (aUser : WebUser) :
    (SubscribableApiModule.subscriptionActive st "web_user_added" = false →
        (WebUserApi.on_UserAdded st aUser).view = st.view.onItemAdded aUser ∧
        (WebUserApi.on_UserAdded st aUser).serializeCalls = st.serializeCalls ∧
        (WebUserApi.on_UserAdded st aUser).sent = st.sent) ∧
      (SubscribableApiModule.subscriptionActive st "web_user_updated" = false →
        (WebUserApi.on_UserUpdated st aUser).view =
          st.view.onItemUpdated aUser (toPropertyIdSet WebUserApi.properties) ∧
        (WebUserApi.on_UserUpdated st aUser).serializeCalls = st.serializeCalls ∧
        (WebUserApi.on_UserUpdated st aUser).sent = st.sent) ∧
      (SubscribableApiModule.subscriptionActive st "web_user_removed" = false →
        (WebUserApi.on_UserRemoved st aUser).view = st.view.onItemRemoved aUser ∧
        (WebUserApi.on_UserRemoved st aUser).serializeCalls = st.serializeCalls ∧
        (WebUserApi.on_UserRemoved st aUser).sent = st.sent) ∧
      (WebUserApi.on_UserAdded st aUser).serializeCalls ≤ st.serializeCalls + 1 ∧
      (WebUserApi.on_UserUpdated st aUser).serializeCalls ≤ st.serializeCalls + 1 ∧
      (WebUserApi.on_UserRemoved st aUser).serializeCalls ≤ st.serializeCalls + 1 := by
  refine ⟨fun h => ?_, fun h => ?_, fun h => ?_, ?_, ?_, ?_⟩
  · unfold WebUserApi.on_UserAdded
    rw [maybeSend_inactive _ _ _ (by simpa [SubscribableApiModule.subscriptionActive] using h)]
    exact ⟨rfl, rfl, rfl⟩
  · unfold WebUserApi.on_UserUpdated
    rw [maybeSend_inactive _ _ _ (by simpa [SubscribableApiModule.subscriptionActive] using h)]
    exact ⟨rfl, rfl, rfl⟩
  · unfold WebUserApi.on_UserRemoved
    rw [maybeSend_inactive _ _ _ (by simpa [SubscribableApiModule.subscriptionActive] using h)]
    exact ⟨rfl, rfl, rfl⟩
  · exact maybeSend_serializeCalls_le _ _ _
  · exact maybeSend_serializeCalls_le _ _ _
  · exact maybeSend_serializeCalls_le _ _ _

/-- Witness for claim C9: in a freshly constructed module no topic is enabled. -/
theorem listener_subscription_gating_witness :
    SubscribableApiModule.subscriptionActive Example.state "web_user_added" = false ∧
      SubscribableApiModule.subscriptionActive Example.state "web_user_updated" = false ∧
      SubscribableApiModule.subscriptionActive Example.state "web_user_removed" = false ∧
      (WebUserApi.on_UserAdded Example.state Example.alice).serializeCalls = 0 ∧
      (WebUserApi.on_UserUpdated Example.state Example.alice).serializeCalls = 0 ∧
      (WebUserApi.on_UserRemoved Example.state Example.alice).serializeCalls = 0 ∧
      (WebUserApi.on_UserAdded Example.state Example.alice).sent = [] ∧
      (WebUserApi.on_UserUpdated Example.state Example.alice).sent = [] ∧
      (WebUserApi.on_UserRemoved Example.state Example.alice).sent = [] :=
  have h := listener_subscription_gating Example.state Example.alice
  ⟨rfl, rfl, rfl, (h.1 rfl).2.1, (h.2.1 rfl).2.1, (h.2.2.1 rfl).2.1,
    (h.1 rfl).2.2, (h.2.1 rfl).2.2, (h.2.2.1 rfl).2.2⟩

/-- Claim C10.  The property table has four descriptors; their identifiers are
pairwise distinct and so are their names `username`, `permissions`,
`active_sessions`, `last_login`; and the serialized record of any user has
exactly these four keys, each once, with the value of the matching property. -/
theorem properties_serialized_exactly_once (aUser : WebUser) :
    WebUserApi.properties.length = 4 ∧
      (WebUserApi.properties.map Property.id).Nodup ∧
      WebUserApi.properties.map Property.name =
        ["username", "permissions", "active_sessions", "last_login"] ∧
      (WebUserApi.properties.map Property.name).Nodup ∧
      (Serializer.serializeItem aUser WebUserApi.itemHandler).keys =
        WebUserApi.properties.map Property.name ∧
      Serializer.serializeItem aUser WebUserApi.itemHandler =
        .obj [("username", .str aUser.userName),
              ("permissions", .arr (aUser.permissions.map Json.str)),
              ("active_sessions", .num aUser.activeSessions),
              ("last_login", .num aUser.lastLogin)] := by
  refine ⟨rfl, by decide, rfl, by decide, rfl, rfl⟩


/-- Evaluation for claim C2.  An update of alice that carries a well-formed
password and permissions that are not a list ends with the validation error on
`permissions`, yet the stored password, `old` before the call, is `new` after
it: `parseUser` sets the password on the manager's object before it reads the
permissions. Neither the view nor the events sent record an update. -/
theorem handleUpdateUser_error_keeps_new_password :
    (∃ e : ArgumentException,
        (WebUserApi.handleUpdateUser Example.state Example.updateBadPermissions).ret = .error e ∧
        e.field = "permissions" ∧ e.type = .ERROR_INVALID) ∧
      (WebUserManager.getUser Example.state "alice").map WebUser.password = some "old" ∧
      (WebUserManager.getUser
        (WebUserApi.handleUpdateUser Example.state Example.updateBadPermissions).state
        "alice").map WebUser.password = some "new" ∧
      (WebUserApi.handleUpdateUser Example.state Example.updateBadPermissions).state.sent = [] :=
  ⟨⟨_, rfl, rfl, rfl⟩, rfl, rfl, rfl⟩

end webserver
